import Mathlib

/-!
Shallow embedding of the credential-issuance and session-lifecycle subsystem
of the ebike-fleet-app repository (`src/services/authentication/service.py`,
`src/services/authentication/models.py`, `src/api_gateway/core/security.py`),
together with proofs about the claims of the specification.

Conventions of the embedding:
* database rows become Lean structures; the SQLAlchemy session becomes an
  explicit `DB` value threaded through the operations;
* `fastapi.HTTPException` becomes the `Except ApiError` monad;
* values drawn from the environment (current time, `secrets.token_hex`,
  `uuid.uuid4`, the random salt) become explicit parameters;
* machine-level byte strings become `List Nat` with values below 256, and
  Python `str` payloads that the code splits and compares become `List Char`.
-/

namespace EbikeAuth

/-- Error raised by the service layer: models `fastapi.HTTPException` with its
`status_code` and `detail` fields. -/
structure ApiError where
  status : Nat
  detail : String
  deriving Repr, DecidableEq

/-- Modelled from the spec: `models.RoleEnum` and the `User.role` column are
referenced throughout the source (`service.py`, `security.py`, the fleet
service and `tests/conftest.py`) but their declarations are absent from the
snapshot's `models.py`; the spec fixes the role set as admin and driver. -/
inductive RoleEnum where
  | admin
  | driver
  deriving Repr, DecidableEq

/-- Row of the `users` table (`models.py`, class `User`), with the
spec-modelled `role` column (see `RoleEnum`). -/
structure User where
  id : String
  username : String
  email : String
  password_hash : List Char
  role : RoleEnum
  deriving Repr, DecidableEq

/-- Row of the `user_profiles` table (`models.py`, class `UserProfile`). -/
structure UserProfile where
  id : String
  user_id : String
  first_name : Option String
  last_name : Option String
  phone_number : Option String
  address_line : Option String
  deriving Repr, DecidableEq

/-- Row of the `refresh_tokens` table (`models.py`, class `RefreshToken`).
Timestamps are seconds since the epoch. -/
structure RefreshRec where
  jti : String
  user_id : String
  revoked : Bool
  replaced_by : Option String
  expires_at : Nat
  deriving Repr, DecidableEq

/-- Committed state of the relational store. Lists keep insertion order, so
`List.find?` matches SQLAlchemy's `.first()` on an unordered query as the
rows come back in insertion order. -/
structure DB where
  users : List User
  profiles : List UserProfile
  sessions : List RefreshRec
  deriving Repr, DecidableEq

/-- Decoded view of a signed token as `python-jose` sees it. `wellFormed`
models whether the string parses as a JWT at all and `sigOk` whether its
signature verifies under the process-wide secret; `jwt.decode` raises
`JWTError` for either failure and for an elapsed `exp`. Claims absent from
the payload dictionary are `none`. -/
structure RefreshJWT where
  wellFormed : Bool
  sigOk : Bool
  exp : Nat
  sub : Option String
  jti : Option String
  typ : Option String
  deriving Repr, DecidableEq

/-- Access token returned by `create_access_token` (`security.py` lines
36-46): subject, issued-at, expiry (60 minutes) and a random `jti`. The
random `jti` is passed in explicitly. -/
structure AccessToken where
  sub : String
  iat : Nat
  exp : Nat
  jti : String
  deriving Repr, DecidableEq

/-- Embedding of `create_access_token` (`security.py` lines 36-46). -/
def create_access_token (now : Nat) (subject : String) (ajti : String)
    (expires_minutes : Nat := 60) : AccessToken :=
  { sub := subject, iat := now, exp := now + expires_minutes * 60, jti := ajti }

/-- Embedding of `create_refresh_token` (`security.py` lines 49-59): a
well-formed, correctly signed JWT with `typ = "refresh"` and expiry
`expires_days` days from `now`. -/
def create_refresh_token (now : Nat) (subject : String) (jti : String)
    (expires_days : Nat := 30) : RefreshJWT :=
  { wellFormed := true, sigOk := true, exp := now + expires_days * 86400,
    sub := some subject, jti := some jti, typ := some "refresh" }

/-- Embedding of `decode_refresh_token` (`security.py` lines 62-69).
`jwt.decode` raises `JWTError` (caught and re-raised as a generic 401) when
the token is malformed, the signature is invalid, or `exp` has elapsed; a
decodable token whose `typ` claim is not `"refresh"` is rejected with a
different detail string but the same 401 status. -/
def decode_refresh_token (now : Nat) (t : RefreshJWT) : Except ApiError RefreshJWT :=
  if !t.wellFormed || !t.sigOk || t.exp ≤ now then
    .error ⟨401, "Invalid or expired token"⟩
  else if t.typ ≠ some "refresh" then
    .error ⟨401, "Invalid token type"⟩
  else
    .ok t

/-- Update the first element satisfying `p` (SQLAlchemy mutates the single
ORM object returned by `.first()`; `jti` carries a unique index, so at most
one row matches). -/
def updateFirst (p : α → Bool) (f : α → α) : List α → List α
  | [] => []
  | x :: xs => if p x then f x :: xs else x :: updateFirst p f xs

/-- Embedding of `_create_refresh_record_and_token` (`service.py` lines
81-98). The fresh `jti` drawn from `secrets.token_hex(16)` is the explicit
parameter `newJti`. The function commits, so its result is a persisted
state; the commit also flushes any change pending on the session, which is
why `refresh_access` below applies its revocation to the store before
calling this. Returns the new store, the signed refresh JWT and the cookie
max-age in seconds. -/
def _create_refresh_record_and_token (db : DB) (now : Nat) (user_id : String)
    (newJti : String) (days : Nat := 30) : DB × RefreshJWT × Nat :=
  let expires_at := now + days * 86400
  let record : RefreshRec :=
    { jti := newJti, user_id := user_id, revoked := false,
      replaced_by := none, expires_at := expires_at }
  let db2 : DB := { db with sessions := db.sessions ++ [record] }
  let refresh_jwt := create_refresh_token now user_id newJti days
  (db2, refresh_jwt, days * 86400)

/-- Embedding of `mint_refresh_token` (`service.py` lines 101-102). -/
def mint_refresh_token (db : DB) (now : Nat) (user_id : String)
    (newJti : String) : DB × RefreshJWT × Nat :=
  _create_refresh_record_and_token db now user_id newJti

/-- First committed half of `refresh_access` (`service.py` lines 105-132):
everything up to and including the commit inside
`_create_refresh_record_and_token`. That commit persists both the pending
`record.revoked = True` write and the insertion of the new session row, but
not yet the `replaced_by` linkage, which only the second commit (line 129)
persists. A crash between the two commits leaves exactly the state returned
here. On success returns the mid-way persisted store, the subject and the
old session's `jti`. -/
def refresh_access_mid (db : DB) (now : Nat) (t : RefreshJWT)
    (newJti : String) : Except ApiError (DB × String × String) :=
  match decode_refresh_token now t with
  | .error e => .error e
  | .ok payload =>
    match payload.jti, payload.sub with
    | some jti, some sub =>
      match db.sessions.find? (fun r => r.jti = jti) with
      | none => .error ⟨401, "Token revoked or not found"⟩
      | some record =>
        if record.revoked then
          .error ⟨401, "Token revoked or not found"⟩
        else if record.expires_at ≤ now then
          .error ⟨401, "Token expired"⟩
        else
          let revokedSessions :=
            updateFirst (fun r => r.jti = jti)
              (fun r => { r with revoked := true }) db.sessions
          let db1 : DB := { db with sessions := revokedSessions }
          let (db2, _, _) := _create_refresh_record_and_token db1 now sub newJti
          .ok (db2, sub, jti)
    | _, _ => .error ⟨401, "Invalid token"⟩

/-- Embedding of `refresh_access` (`service.py` lines 105-132) to its final
commit: the mid-way state of `refresh_access_mid` followed by decoding the
fresh refresh JWT (which always succeeds: it was just minted with
`typ = "refresh"` and a future expiry), setting `replaced_by` on the old
row, and committing again. `ajti` is the random `jti` drawn inside
`create_access_token`. Returns the store, the access token, the new refresh
JWT and the cookie max-age. -/
def refresh_access (db : DB) (now : Nat) (t : RefreshJWT) (newJti : String)
    (ajti : String) : Except ApiError (DB × AccessToken × RefreshJWT × Nat) :=
  match refresh_access_mid db now t newJti with
  | .error e => .error e
  | .ok (db2, sub, oldJti) =>
    let linkedSessions :=
      updateFirst (fun r => r.jti = oldJti)
        (fun r => { r with replaced_by := some newJti }) db2.sessions
    let db3 : DB := { db2 with sessions := linkedSessions }
    let access := create_access_token now sub ajti
    .ok (db3, access, create_refresh_token now sub newJti, 30 * 86400)

/-- Embedding of `logout` (`service.py` lines 135-151): best-effort
revocation, returning the store unchanged when the token fails to decode,
lacks a `jti`, or matches no row. -/
def logout (db : DB) (now : Nat) (t : RefreshJWT) : DB :=
  match decode_refresh_token now t with
  | .error _ => db
  | .ok payload =>
    match payload.jti with
    | none => db
    | some jti =>
      match db.sessions.find? (fun r => r.jti = jti) with
      | none => db
      | some _ =>
        let revokedSessions :=
          updateFirst (fun r => r.jti = jti)
            (fun r => { r with revoked := true }) db.sessions
        { db with sessions := revokedSessions }

/-- Request body of `POST /auth/register` (`schemas.py`, class `UserCreate`).
The password is its UTF-8 byte sequence. -/
structure UserCreate where
  username : String
  email : String
  password : List Nat
  deriving Repr, DecidableEq

/-- Insertion half of `create_user` (`service.py` lines 40-61): hash the
password, pick the role (admin when no admin exists yet, driver otherwise),
and insert the user row together with its empty profile row in one commit.
Fresh UUIDs and the random salt are explicit parameters; `hashed` stands for
the result of `hash_password`, supplied by the caller `create_user`. -/
def create_user_insert (db : DB) (u : UserCreate) (hashed : List Char)
    (newId newProfileId : String) : Except ApiError (DB × User) :=
  let has_admin := db.users.any (fun x => x.role = RoleEnum.admin)
  let role := if !has_admin then RoleEnum.admin else RoleEnum.driver
  let db_user : User :=
    { id := newId, username := u.username, email := u.email,
      password_hash := hashed, role := role }
  let profile : UserProfile :=
    { id := newProfileId, user_id := newId, first_name := none,
      last_name := none, phone_number := none, address_line := none }
  let db2 : DB :=
    { db with users := db.users ++ [db_user], profiles := db.profiles ++ [profile] }
  .ok (db2, db_user)

/-- Embedding of `create_user` (`service.py` lines 17-61): reject a clash on
username or email with 409 Conflict (username checked first, mirroring the
two `if` statements on lines 35-38), then hash and insert. -/
def create_user (db : DB) (u : UserCreate) (hashed : List Char)
    (newId newProfileId : String) : Except ApiError (DB × User) :=
  match db.users.find? (fun x => x.username = u.username || x.email = u.email) with
  | some existing =>
    if existing.username = u.username then
      .error ⟨409, "Username already exists"⟩
    else if existing.email = u.email then
      .error ⟨409, "Email already exists"⟩
    else
      create_user_insert db u hashed newId newProfileId
  | none => create_user_insert db u hashed newId newProfileId

/-- Embedding of `models.RoleEnum(role)` on a string value: succeeds exactly
on the enum's two values and raises `ValueError` (here `none`) otherwise.
Modelled from the spec for the value set, as `RoleEnum` is (see above). -/
def roleFromString (s : String) : Option RoleEnum :=
  if s = "admin" then some RoleEnum.admin
  else if s = "driver" then some RoleEnum.driver
  else none

/-- Embedding of `set_user_role_by_id` (`service.py` lines 184-194): load
the user (404 when absent), then coerce the role string (400 when not a
member of the enum), assign and commit. -/
def set_user_role_by_id (db : DB) (user_id : String) (role : String) :
    Except ApiError (DB × User) :=
  match db.users.find? (fun x => x.id = user_id) with
  | none => .error ⟨404, "User not found"⟩
  | some user =>
    match roleFromString role with
    | none => .error ⟨400, "Invalid role"⟩
    | some r =>
      let newUsers :=
        updateFirst (fun x => x.id = user_id)
          (fun x => { x with role := r }) db.users
      .ok ({ db with users := newUsers }, { user with role := r })

/-- Embedding of `set_user_role_by_email` (`service.py` lines 197-207):
identical to `set_user_role_by_id` except for the lookup key. -/
def set_user_role_by_email (db : DB) (email : String) (role : String) :
    Except ApiError (DB × User) :=
  match db.users.find? (fun x => x.email = email) with
  | none => .error ⟨404, "User not found"⟩
  | some user =>
    match roleFromString role with
    | none => .error ⟨400, "Invalid role"⟩
    | some r =>
      let newUsers :=
        updateFirst (fun x => x.email = email)
          (fun x => { x with role := r }) db.users
      .ok ({ db with users := newUsers }, { user with role := r })

/-- Embedding of `bootstrap_admin` (`service.py` lines 210-221): 403 when
any admin exists, 404 when the caller's row is absent, otherwise set the
caller's role to admin and return the updated user. -/
def bootstrap_admin (db : DB) (user_id : String) : Except ApiError (DB × User) :=
  let has_admin := db.users.any (fun x => x.role = RoleEnum.admin)
  if has_admin then
    .error ⟨403, "Admin already exists"⟩
  else
    match db.users.find? (fun x => x.id = user_id) with
    | none => .error ⟨404, "User not found"⟩
    | some user =>
      let newUsers :=
        updateFirst (fun x => x.id = user_id)
          (fun x => { x with role := RoleEnum.admin }) db.users
      .ok ({ db with users := newUsers }, { user with role := RoleEnum.admin })

/-- Body of `PUT /auth/me/profile` (`schemas.py`, class `UserProfileUpdate`).
Pydantic's `model_dump(exclude_unset=True)` distinguishes a field that was
not supplied from one explicitly set to null, so each field is an
`Option (Option String)`: `none` means absent from the request, `some v`
means explicitly set to `v` (which may itself be null). -/
structure UserProfileUpdate where
  first_name : Option (Option String) := none
  last_name : Option (Option String) := none
  phone_number : Option (Option String) := none
  address_line : Option (Option String) := none
  deriving Repr, DecidableEq

/-- Embedding of the `setattr` loop of `upsert_user_profile` (`service.py`
lines 175-177): overwrite exactly the fields present in the update. -/
def applyProfileUpdate (p : UserProfile) (u : UserProfileUpdate) : UserProfile :=
  { p with
    first_name := u.first_name.getD p.first_name,
    last_name := u.last_name.getD p.last_name,
    phone_number := u.phone_number.getD p.phone_number,
    address_line := u.address_line.getD p.address_line }

/-- Embedding of `upsert_user_profile` (`service.py` lines 165-181): update
the existing profile row in place, or create a fresh row (with a new UUID,
passed in as `newId`) when none exists, then apply the explicitly-set fields
and commit. -/
def upsert_user_profile (db : DB) (user_id : String) (u : UserProfileUpdate)
    (newId : String) : DB × UserProfile :=
  match db.profiles.find? (fun p => p.user_id = user_id) with
  | some p =>
    let p2 := applyProfileUpdate p u
    let newProfiles :=
      updateFirst (fun q => q.user_id = user_id)
        (fun q => applyProfileUpdate q u) db.profiles
    ({ db with profiles := newProfiles }, p2)
  | none =>
    let base : UserProfile :=
      { id := newId, user_id := user_id, first_name := none,
        last_name := none, phone_number := none, address_line := none }
    let p2 := applyProfileUpdate base u
    ({ db with profiles := db.profiles ++ [p2] }, p2)

/-! SHA-256 (FIPS 180-4), the digest `hashlib.sha256` computes, over byte
lists, with 32-bit words as `Nat` reduced modulo `2 ^ 32`. -/

/-- Modulus of a 32-bit word. -/
def wmod : Nat := 4294967296

/-- Right rotation of a 32-bit word by `n` (for `0 < n < 32`). -/
def rotr (n x : Nat) : Nat :=
  (x >>> n) ||| ((x <<< (32 - n)) % wmod)

/-- Message-schedule sigma-0. -/
def smallSigma0 (x : Nat) : Nat := (rotr 7 x) ^^^ (rotr 18 x) ^^^ (x >>> 3)

/-- Message-schedule sigma-1. -/
def smallSigma1 (x : Nat) : Nat := (rotr 17 x) ^^^ (rotr 19 x) ^^^ (x >>> 10)

/-- Compression Sigma-0. -/
def bigSigma0 (x : Nat) : Nat := (rotr 2 x) ^^^ (rotr 13 x) ^^^ (rotr 22 x)

/-- Compression Sigma-1. -/
def bigSigma1 (x : Nat) : Nat := (rotr 6 x) ^^^ (rotr 11 x) ^^^ (rotr 25 x)

/-- Round constants (decimal form of the FIPS 180-4 table). -/
def sha256K : List Nat :=
  [1116352408, 1899447441, 3049323471, 3921009573,
   961987163, 1508970993, 2453635748, 2870763221,
   3624381080, 310598401, 607225278, 1426881987,
   1925078388, 2162078206, 2614888103, 3248222580,
   3835390401, 4022224774, 264347078, 604807628,
   770255983, 1249150122, 1555081692, 1996064986,
   2554220882, 2821834349, 2952996808, 3210313671,
   3336571891, 3584528711, 113926993, 338241895,
   666307205, 773529912, 1294757372, 1396182291,
   1695183700, 1986661051, 2177026350, 2456956037,
   2730485921, 2820302411, 3259730800, 3345764771,
   3516065817, 3600352804, 4094571909, 275423344,
   430227734, 506948616, 659060556, 883997877,
   958139571, 1322822218, 1537002063, 1747873779,
   1955562222, 2024104815, 2227730452, 2361852424,
   2428436474, 2756734187, 3204031479, 3329325298]

/-- Initial hash value (decimal). -/
def sha256H0 : List Nat :=
  [1779033703, 3144134277, 1013904242, 2773480762,
   1359893119, 2600822924, 528734635, 1541459225]

/-- Big-endian byte expansion of `v` to `n` bytes. -/
def bytesBE : Nat → Nat → List Nat
  | 0, _ => []
  | n + 1, v => bytesBE n (v / 256) ++ [v % 256]

/-- Group bytes into big-endian 32-bit words. -/
def toWords : List Nat → List Nat
  | b0 :: b1 :: b2 :: b3 :: rest =>
    (((b0 * 256 + b1) * 256 + b2) * 256 + b3) :: toWords rest
  | _ => []

/-- Pad a message: append the `0x80` byte, zeros to 56 mod 64, and the
64-bit big-endian bit length. -/
def sha256pad (msg : List Nat) : List Nat :=
  let len := msg.length
  let zeros := (120 - ((len + 1) % 64)) % 64
  msg ++ [128] ++ List.replicate zeros 0 ++ bytesBE 8 (len * 8)

/-- Accumulate words into blocks of 16 (the accumulator holds the current
block reversed). -/
def chunkAux (acc : List Nat) : List Nat → List (List Nat)
  | [] => if acc.isEmpty then [] else [acc.reverse]
  | w :: ws =>
    if acc.length = 15 then (acc.reverse ++ [w]) :: chunkAux [] ws
    else chunkAux (w :: acc) ws

/-- Split the word stream into 16-word blocks. -/
def chunk16 (ws : List Nat) : List (List Nat) :=
  chunkAux [] ws

/-- Extend a 16-word block by `k` schedule words. -/
def extendW : Nat → List Nat → List Nat
  | 0, w => w
  | k + 1, w =>
    let i := w.length
    let next := (w.getD (i - 16) 0 + smallSigma0 (w.getD (i - 15) 0) +
      w.getD (i - 7) 0 + smallSigma1 (w.getD (i - 2) 0)) % wmod
    extendW k (w ++ [next])

/-- One compression round on the state `[a, b, c, d, e, f, g, h]`, where
`kw` is the round constant already added to the schedule word. -/
def compressRound (st : List Nat) (kw : Nat) : List Nat :=
  match st with
  | [a, b, c, d, e, f, g, h] =>
    let ch := (e &&& f) ^^^ ((e ^^^ (wmod - 1)) &&& g)
    let temp1 := (h + bigSigma1 e + ch + kw) % wmod
    let maj := (a &&& b) ^^^ (a &&& c) ^^^ (b &&& c)
    let temp2 := (bigSigma0 a + maj) % wmod
    [(temp1 + temp2) % wmod, a, b, c, (d + temp1) % wmod, e, f, g]
  | _ => st

/-- Compress one 16-word block into the running hash. -/
def compressBlock (h : List Nat) (block : List Nat) : List Nat :=
  let w := extendW 48 block
  let kw := (sha256K.zip w).map (fun p => (p.1 + p.2) % wmod)
  let st := kw.foldl compressRound h
  (h.zip st).map (fun p => (p.1 + p.2) % wmod)

/-- SHA-256 digest of a byte list, as 32 bytes. -/
def sha256 (msg : List Nat) : List Nat :=
  let blocks := chunk16 (toWords (sha256pad msg))
  let hf := blocks.foldl compressBlock sha256H0
  (hf.map (bytesBE 4)).flatten

/-- Lowercase hexadecimal digit. -/
def hexDigitChar (n : Nat) : Char :=
  if n < 10 then Char.ofNat (48 + n) else Char.ofNat (87 + n)

/-- Lowercase hex encoding of a byte list (`bytes.hex()` and the tail of
`hexdigest()`). -/
def bytesToHex (bs : List Nat) : List Char :=
  (bs.map (fun b => [hexDigitChar (b / 16), hexDigitChar (b % 16)])).flatten

/-- Value of a hexadecimal digit, if any. -/
def hexDigitVal (c : Char) : Option Nat :=
  if 48 ≤ c.toNat ∧ c.toNat ≤ 57 then some (c.toNat - 48)
  else if 97 ≤ c.toNat ∧ c.toNat ≤ 102 then some (c.toNat - 87)
  else if 65 ≤ c.toNat ∧ c.toNat ≤ 70 then some (c.toNat - 55)
  else none

/-- Embedding of `bytes.fromhex`: pairs of hex digits, with spaces allowed
between pairs; `none` models the `ValueError` raised on any other input. -/
def hexToBytes : List Char → Option (List Nat)
  | [] => some []
  | c :: rest =>
    if c = ' ' then hexToBytes rest
    else
      match rest with
      | [] => none
      | c2 :: rest2 =>
        match hexDigitVal c, hexDigitVal c2 with
        | some v1, some v2 => (hexToBytes rest2).map (fun bs => (v1 * 16 + v2) :: bs)
        | _, _ => none

/-- Embedding of Python `str.split` on a single-character separator, which
keeps empty fields and returns one field even for the empty string. -/
def splitDollar (cs : List Char) : List (List Char) :=
  match cs with
  | [] => [[]]
  | c :: rest =>
    let r := splitDollar rest
    if c = '$' then [] :: r
    else
      match r with
      | [] => [[c]]
      | h :: t => (c :: h) :: t

/-- Embedding of `hash_password` (`security.py` lines 18-21): the fresh
16-byte salt drawn from `secrets.token_bytes` is the explicit `salt`
parameter, and the password stands for its UTF-8 bytes. -/
def hash_password (salt : List Nat) (password : List Nat) : List Char :=
  ("sha256".toList ++ ['$']) ++ bytesToHex salt ++ ('$' :: bytesToHex (sha256 (salt ++ password)))

/-- Embedding of `verify_password` (`security.py` lines 24-33). Every
exception path of the original (`split` unpacking into other than three
fields, `bytes.fromhex` failing) is a `false` branch here, and
`hmac.compare_digest` on the two digest strings is equality. -/
def verify_password (plain : List Nat) (hashed : List Char) : Bool :=
  match splitDollar hashed with
  | [algo, salt_hex, stored_hex] =>
    if algo ≠ "sha256".toList then false
    else
      match hexToBytes salt_hex with
      | none => false
      | some salt =>
        bytesToHex (sha256 (salt ++ plain)) == stored_hex
  | _ => false

/-- Invariant of the `refresh_tokens` table stated by the spec: a session
with `replaced_by` set must have `revoked = true`. -/
def sessInv (db : DB) : Prop :=
  ∀ r ∈ db.sessions, r.replaced_by ≠ none → r.revoked = true

/-- Store states reachable from the empty store through the subsystem's
operations. The mid-way state of a rotation (`refresh_access_mid`, persisted
by the commit inside `_create_refresh_record_and_token`) is reachable in its
own right: a crash before the second commit leaves exactly that state. -/
inductive Reachable : DB → Prop where
  | empty : Reachable ⟨[], [], []⟩
  | register (db : DB) (u : UserCreate) (hashed : List Char) (i p : String)
      (db2 : DB) (usr : User) : Reachable db →
      create_user db u hashed i p = .ok (db2, usr) → Reachable db2
  | openSession (db : DB) (now : Nat) (uid j : String) : Reachable db →
      Reachable (mint_refresh_token db now uid j).1
  | refreshMid (db : DB) (now : Nat) (t : RefreshJWT) (j : String) (db2 : DB)
      (s o : String) : Reachable db →
      refresh_access_mid db now t j = .ok (db2, s, o) → Reachable db2
  | refreshFull (db : DB) (now : Nat) (t : RefreshJWT) (j a : String) (db2 : DB)
      (tok : AccessToken) (r : RefreshJWT) (m : Nat) : Reachable db →
      refresh_access db now t j a = .ok (db2, tok, r, m) → Reachable db2
  | loggedOut (db : DB) (now : Nat) (t : RefreshJWT) : Reachable db →
      Reachable (logout db now t)
  | roleById (db : DB) (uid role : String) (db2 : DB) (usr : User) :
      Reachable db → set_user_role_by_id db uid role = .ok (db2, usr) →
      Reachable db2
  | roleByEmail (db : DB) (email role : String) (db2 : DB) (usr : User) :
      Reachable db → set_user_role_by_email db email role = .ok (db2, usr) →
      Reachable db2
  | bootstrapped (db : DB) (uid : String) (db2 : DB) (usr : User) :
      Reachable db → bootstrap_admin db uid = .ok (db2, usr) → Reachable db2
  | profiled (db : DB) (uid : String) (u : UserProfileUpdate) (i : String) :
      Reachable db → Reachable (upsert_user_profile db uid u i).1

/-! Helper lemmas about `List.find?` and `updateFirst`. -/

theorem find?_append_some {α : Type} {p : α → Bool} {l1 l2 : List α} {x : α}
    (h : l1.find? p = some x) : (l1 ++ l2).find? p = some x := by
  rw [List.find?_append, h]
  rfl

theorem find?_some_eq {α : Type} {p : α → Bool} {l : List α} {x : α}
    (h : l.find? p = some x) : p x = true :=
  List.find?_some h

theorem updateFirst_find? {α : Type} {p : α → Bool} {f : α → α} {l : List α} {x : α}
    (h : l.find? p = some x) (hf : p (f x) = true) :
    (updateFirst p f l).find? p = some (f x) := by
  induction l with
  | nil => simp [List.find?] at h
  | cons a t ih =>
    cases hpa : p a with
    | true =>
      rw [List.find?_cons_of_pos _ hpa] at h
      have hax : a = x := by injection h
      subst hax
      simp only [updateFirst, hpa, if_pos]
      rw [List.find?_cons_of_pos _ hf]
    | false =>
      rw [List.find?_cons_of_neg _ (by simp [hpa])] at h
      simp only [updateFirst, hpa, Bool.false_eq_true, if_false]
      rw [List.find?_cons_of_neg _ (by simp [hpa])]
      exact ih h

theorem mem_updateFirst {α : Type} {p : α → Bool} {f : α → α} {l : List α} {r : α}
    (h : r ∈ updateFirst p f l) :
    r ∈ l ∨ ∃ x, l.find? p = some x ∧ r = f x := by
  induction l with
  | nil => simp [updateFirst] at h
  | cons a t ih =>
    cases hpa : p a with
    | true =>
      simp only [updateFirst, hpa, if_pos] at h
      rcases List.mem_cons.mp h with h1 | h1
      · exact Or.inr ⟨a, List.find?_cons_of_pos _ hpa, h1⟩
      · exact Or.inl (List.mem_cons_of_mem _ h1)
    | false =>
      simp only [updateFirst, hpa, Bool.false_eq_true, if_false] at h
      rcases List.mem_cons.mp h with h1 | h1
      · exact Or.inl (h1 ▸ List.mem_cons_self a t)
      · rcases ih h1 with h2 | ⟨x, hx, hr⟩
        · exact Or.inl (List.mem_cons_of_mem _ h2)
        · refine Or.inr ⟨x, ?_, hr⟩
          rw [List.find?_cons_of_neg _ (by simp [hpa])]
          exact hx

/-! Characterization lemmas for the token and session operations. -/

theorem decode_ok_iff {now : Nat} {t p : RefreshJWT} :
    decode_refresh_token now t = .ok p ↔
      (t.wellFormed = true ∧ t.sigOk = true ∧ now < t.exp ∧
       t.typ = some "refresh" ∧ p = t) := by
  cases hw : t.wellFormed with
  | false => simp [decode_refresh_token, hw]
  | true =>
    cases hs : t.sigOk with
    | false => simp [decode_refresh_token, hs]
    | true =>
      by_cases hle : t.exp ≤ now
      · simp [decode_refresh_token, hw, hs, hle, Nat.not_lt.mpr hle]
      · by_cases hty : t.typ = some "refresh"
        · have hdec : decode_refresh_token now t = .ok t := by
            simp [decode_refresh_token, hw, hs, hle, hty]
          rw [hdec]
          constructor
          · intro hc
            injection hc with hc
            exact ⟨rfl, rfl, Nat.not_le.mp hle, hty, hc.symm⟩
          · rintro ⟨_, _, _, _, hp⟩
            rw [hp]
        · simp [decode_refresh_token, hw, hs, hle, hty]

theorem decode_error_status {now : Nat} {t : RefreshJWT} {e : ApiError}
    (h : decode_refresh_token now t = .error e) : e.status = 401 := by
  unfold decode_refresh_token at h
  split at h
  · injection h with h2
    rw [← h2]
  · split at h
    · injection h with h2
      rw [← h2]
    · exact Except.noConfusion h

theorem refresh_mid_ok {db : DB} {now : Nat} {t : RefreshJWT} {j : String}
    {db2 : DB} {s o : String}
    (h : refresh_access_mid db now t j = .ok (db2, s, o)) :
    t.wellFormed = true ∧ t.sigOk = true ∧ now < t.exp ∧ t.typ = some "refresh" ∧
    t.jti = some o ∧ t.sub = some s ∧
    ∃ rec, db.sessions.find? (fun r => r.jti = o) = some rec ∧
      rec.revoked = false ∧ now < rec.expires_at ∧
      db2.users = db.users ∧ db2.profiles = db.profiles ∧
      db2.sessions =
        updateFirst (fun r => r.jti = o) (fun r => { r with revoked := true })
          db.sessions ++
        [{ jti := j, user_id := s, revoked := false, replaced_by := none,
           expires_at := now + 30 * 86400 }] := by
  unfold refresh_access_mid at h
  split at h
  · exact Except.noConfusion h
  · rename_i payload hdec
    split at h
    · rename_i jti0 sub0 hjti hsub
      split at h
      · exact Except.noConfusion h
      · rename_i record hfind
        split at h
        · exact Except.noConfusion h
        · split at h
          · exact Except.noConfusion h
          · rename_i hrev hexp
            simp only [_create_refresh_record_and_token, Except.ok.injEq,
              Prod.mk.injEq] at h
            obtain ⟨hdb, hsub2, hjti2⟩ := h
            subst hsub2
            subst hjti2
            obtain ⟨hw, hs2, hlt, hty, hp⟩ := decode_ok_iff.mp hdec
            subst hp
            refine ⟨hw, hs2, hlt, hty, hjti, hsub, record, hfind,
              Bool.not_eq_true record.revoked ▸ hrev, by omega, ?_, ?_, ?_⟩
            · rw [← hdb]
            · rw [← hdb]
            · rw [← hdb]
    · exact Except.noConfusion h

theorem refresh_mid_error_status {db : DB} {now : Nat} {t : RefreshJWT}
    {j : String} {e : ApiError}
    (h : refresh_access_mid db now t j = .error e) : e.status = 401 := by
  unfold refresh_access_mid at h
  split at h
  · rename_i e2 hdec
    injection h with h2
    exact h2 ▸ decode_error_status hdec
  · rename_i payload hdec
    split at h
    · rename_i jti0 sub0 hjti hsub
      split at h
      · injection h with h2
        rw [← h2]
      · rename_i record hfind
        split at h
        · injection h with h2
          rw [← h2]
        · split at h
          · injection h with h2
            rw [← h2]
          · simp [_create_refresh_record_and_token] at h
    · injection h with h2
      rw [← h2]

theorem refresh_access_ok_elim {db : DB} {now : Nat} {t : RefreshJWT}
    {j a : String} {db3 : DB} {tok : AccessToken} {rj : RefreshJWT} {m : Nat}
    (h : refresh_access db now t j a = .ok (db3, tok, rj, m)) :
    ∃ db2 s o, refresh_access_mid db now t j = .ok (db2, s, o) ∧
      db3.users = db2.users ∧ db3.profiles = db2.profiles ∧
      db3.sessions = updateFirst (fun r => r.jti = o)
        (fun r => { r with replaced_by := some j }) db2.sessions := by
  unfold refresh_access at h
  cases hmid : refresh_access_mid db now t j with
  | error e =>
    rw [hmid] at h
    exact Except.noConfusion h
  | ok v =>
    obtain ⟨db2, s, o⟩ := v
    rw [hmid] at h
    simp only [Except.ok.injEq, Prod.mk.injEq] at h
    obtain ⟨hdb, -, -, -⟩ := h
    exact ⟨db2, s, o, rfl, by rw [← hdb], by rw [← hdb], by rw [← hdb]⟩

theorem refresh_access_error_iff {db : DB} {now : Nat} {t : RefreshJWT}
    {j a : String} {e : ApiError} :
    refresh_access db now t j a = .error e ↔
      refresh_access_mid db now t j = .error e := by
  unfold refresh_access
  cases hmid : refresh_access_mid db now t j with
  | error e2 => simp
  | ok v =>
    obtain ⟨db2, s, o⟩ := v
    simp

theorem create_user_insert_sessions {db : DB} {u : UserCreate}
    {hashed : List Char} {i p : String} {db2 : DB} {usr : User}
    (h : create_user_insert db u hashed i p = .ok (db2, usr)) :
    db2.sessions = db.sessions := by
  unfold create_user_insert at h
  simp only [Except.ok.injEq, Prod.mk.injEq] at h
  obtain ⟨hdb, -⟩ := h
  rw [← hdb]

theorem create_user_sessions {db : DB} {u : UserCreate} {hashed : List Char}
    {i p : String} {db2 : DB} {usr : User}
    (h : create_user db u hashed i p = .ok (db2, usr)) :
    db2.sessions = db.sessions := by
  unfold create_user at h
  split at h
  · split at h
    · exact Except.noConfusion h
    · split at h
      · exact Except.noConfusion h
      · exact create_user_insert_sessions h
  · exact create_user_insert_sessions h

theorem set_role_by_id_sessions {db : DB} {uid role : String} {db2 : DB}
    {usr : User} (h : set_user_role_by_id db uid role = .ok (db2, usr)) :
    db2.sessions = db.sessions := by
  unfold set_user_role_by_id at h
  split at h
  · exact Except.noConfusion h
  · split at h
    · exact Except.noConfusion h
    · simp only [Except.ok.injEq, Prod.mk.injEq] at h
      obtain ⟨hdb, -⟩ := h
      rw [← hdb]

theorem set_role_by_email_sessions {db : DB} {em role : String} {db2 : DB}
    {usr : User} (h : set_user_role_by_email db em role = .ok (db2, usr)) :
    db2.sessions = db.sessions := by
  unfold set_user_role_by_email at h
  split at h
  · exact Except.noConfusion h
  · split at h
    · exact Except.noConfusion h
    · simp only [Except.ok.injEq, Prod.mk.injEq] at h
      obtain ⟨hdb, -⟩ := h
      rw [← hdb]

theorem bootstrap_admin_sessions {db : DB} {uid : String} {db2 : DB}
    {usr : User} (h : bootstrap_admin db uid = .ok (db2, usr)) :
    db2.sessions = db.sessions := by
  unfold bootstrap_admin at h
  simp only [] at h
  split at h
  · exact Except.noConfusion h
  · split at h
    · exact Except.noConfusion h
    · simp only [Except.ok.injEq, Prod.mk.injEq] at h
      obtain ⟨hdb, -⟩ := h
      rw [← hdb]

theorem upsert_profile_sessions (db : DB) (uid : String)
    (u : UserProfileUpdate) (i : String) :
    (upsert_user_profile db uid u i).1.sessions = db.sessions := by
  unfold upsert_user_profile
  split <;> rfl

theorem mint_sessions (db : DB) (now : Nat) (uid j : String) :
    (mint_refresh_token db now uid j).1.sessions =
      db.sessions ++ [⟨j, uid, false, none, now + 30 * 86400⟩] := rfl

theorem logout_revokes (db : DB) (now : Nat) {t : RefreshJWT} {o : String}
    (hw : t.wellFormed = true) (hs : t.sigOk = true) (hlt : now < t.exp)
    (hty : t.typ = some "refresh") (hjti : t.jti = some o) :
    logout db now t =
      match db.sessions.find? (fun r => r.jti = o) with
      | none => db
      | some _ =>
        { db with
            sessions :=
              updateFirst (fun r => r.jti = o)
                (fun r => { r with revoked := true }) db.sessions } := by
  unfold logout
  rw [show decode_refresh_token now t = .ok t from
    decode_ok_iff.mpr ⟨hw, hs, hlt, hty, rfl⟩]
  simp only [hjti]

theorem logout_sessions_cases (db : DB) (now : Nat) (t : RefreshJWT) :
    (logout db now t).users = db.users ∧
    (logout db now t).profiles = db.profiles ∧
    ((logout db now t).sessions = db.sessions ∨
     ∃ jti0, (logout db now t).sessions =
       updateFirst (fun r => r.jti = jti0)
         (fun r => { r with revoked := true }) db.sessions) := by
  unfold logout
  split
  · exact ⟨rfl, rfl, Or.inl rfl⟩
  · split
    · exact ⟨rfl, rfl, Or.inl rfl⟩
    · split
      · exact ⟨rfl, rfl, Or.inl rfl⟩
      · exact ⟨rfl, rfl, Or.inr ⟨_, rfl⟩⟩

/-- C1: for every refresh token whose session row is absent from the store,
marked revoked, or has `expires_at ≤ now`, `refresh_access` fails with
status 401 (Unauthorized); after a successful refresh, presenting the same
token again always fails 401; and a `logout` followed by a refresh of the
same token (at any later or equal time) fails 401. -/
theorem refresh_rejects_stale_sessions :
    (∀ (db : DB) (now : Nat) (t : RefreshJWT) (j a : String)
       (payload : RefreshJWT) (o : String),
       decode_refresh_token now t = .ok payload → payload.jti = some o →
       (db.sessions.find? (fun r => r.jti = o) = none ∨
        (∃ rec, db.sessions.find? (fun r => r.jti = o) = some rec ∧
          (rec.revoked = true ∨ rec.expires_at ≤ now))) →
       ∃ e, refresh_access db now t j a = .error e ∧ e.status = 401) ∧
    (∀ (db : DB) (now : Nat) (t : RefreshJWT) (j a : String) (db3 : DB)
       (tok : AccessToken) (rj : RefreshJWT) (m now2 : Nat) (j2 a2 : String),
       refresh_access db now t j a = .ok (db3, tok, rj, m) →
       ∃ e, refresh_access db3 now2 t j2 a2 = .error e ∧ e.status = 401) ∧
    (∀ (db : DB) (now1 now2 : Nat) (t : RefreshJWT) (j a : String),
       now1 ≤ now2 →
       ∃ e, refresh_access (logout db now1 t) now2 t j a = .error e ∧
         e.status = 401) := by
  refine ⟨?_, ?_, ?_⟩
  · intro db now t j a payload o hdec hjti hbad
    cases hres : refresh_access db now t j a with
    | error e =>
      exact ⟨e, rfl, refresh_mid_error_status (refresh_access_error_iff.mp hres)⟩
    | ok v =>
      exfalso
      obtain ⟨db3, tok, rj, m⟩ := v
      obtain ⟨db2, s, o2, hmid, -, -, -⟩ := refresh_access_ok_elim hres
      obtain ⟨hw, hsg, hlt, hty, hjti2, hsub, rec, hfind, hrev, hexp, -, -, -⟩ :=
        refresh_mid_ok hmid
      obtain ⟨-, -, -, -, hp⟩ := decode_ok_iff.mp hdec
      subst hp
      rw [hjti] at hjti2
      injection hjti2 with ho
      subst ho
      rcases hbad with hnone | ⟨rec2, hfind2, hbad2⟩
      · rw [hfind] at hnone
        exact Option.noConfusion hnone
      · rw [hfind] at hfind2
        injection hfind2 with he
        subst he
        rcases hbad2 with h1 | h1
        · rw [h1] at hrev
          exact Bool.noConfusion hrev
        · omega
  · intro db now t j a db3 tok rj m now2 j2 a2 hok
    obtain ⟨db2, s, o, hmid, hu3, hp3, hs3⟩ := refresh_access_ok_elim hok
    obtain ⟨hw, hsg, hlt, hty, hjti, hsub, rec, hfind, hrev, hexp, hu2, hp2, hs2⟩ :=
      refresh_mid_ok hmid
    cases hres : refresh_access db3 now2 t j2 a2 with
    | error e =>
      exact ⟨e, rfl, refresh_mid_error_status (refresh_access_error_iff.mp hres)⟩
    | ok v =>
      exfalso
      obtain ⟨db4, tok2, rj2, m2⟩ := v
      obtain ⟨db2b, s2, o2, hmid2, -, -, -⟩ := refresh_access_ok_elim hres
      obtain ⟨-, -, -, -, hjti2, -, rec2, hfind2, hrev2, -, -, -, -⟩ :=
        refresh_mid_ok hmid2
      rw [hjti] at hjti2
      injection hjti2 with ho
      subst ho
      have hfr : (updateFirst (fun r => r.jti = o)
          (fun r => { r with revoked := true }) db.sessions).find?
            (fun r => r.jti = o) = some { rec with revoked := true } := by
        have hprec := find?_some_eq hfind
        exact updateFirst_find? hfind hprec
      have hfr2 : db2.sessions.find? (fun r => r.jti = o) =
          some { rec with revoked := true } := by
        rw [hs2]
        exact find?_append_some hfr
      have hfr3 : db3.sessions.find? (fun r => r.jti = o) =
          some { rec with revoked := true, replaced_by := some j } := by
        rw [hs3]
        have hprec2 := find?_some_eq hfr2
        exact updateFirst_find? hfr2 hprec2
      rw [hfr3] at hfind2
      injection hfind2 with he
      rw [← he] at hrev2
      exact Bool.noConfusion hrev2
  · intro db now1 now2 t j a hle
    cases hres : refresh_access (logout db now1 t) now2 t j a with
    | error e =>
      exact ⟨e, rfl, refresh_mid_error_status (refresh_access_error_iff.mp hres)⟩
    | ok v =>
      exfalso
      obtain ⟨db4, tok2, rj2, m2⟩ := v
      obtain ⟨db2, s, o, hmid, -, -, -⟩ := refresh_access_ok_elim hres
      obtain ⟨hw, hsg, hlt2, hty, hjti, hsub, rec, hfind, hrev, hexp, -, -, -⟩ :=
        refresh_mid_ok hmid
      have hlt1 : now1 < t.exp := Nat.lt_of_le_of_lt hle hlt2
      have hlg := logout_revokes db now1 hw hsg hlt1 hty hjti
      cases hfind0 : db.sessions.find? (fun r => r.jti = o) with
      | none =>
        rw [hfind0] at hlg
        rw [hlg] at hfind
        have hfind' : db.sessions.find? (fun r => r.jti = o) = some rec := hfind
        rw [hfind0] at hfind'
        exact Option.noConfusion hfind'
      | some x =>
        rw [hfind0] at hlg
        rw [hlg] at hfind
        have hfind' : (updateFirst (fun r => r.jti = o)
            (fun r => { r with revoked := true }) db.sessions).find?
              (fun r => r.jti = o) = some rec := hfind
        have hprec0 := find?_some_eq hfind0
        have hfr : (updateFirst (fun r => r.jti = o)
            (fun r => { r with revoked := true }) db.sessions).find?
              (fun r => r.jti = o) = some { x with revoked := true } :=
          updateFirst_find? hfind0 hprec0
        rw [hfr] at hfind'
        injection hfind' with he
        rw [← he] at hrev
        exact Bool.noConfusion hrev

/-! Helper lemmas for the password-hash encoding. -/

theorem hexDigitChar_spec {n : Nat} (h : n < 16) :
    hexDigitVal (hexDigitChar n) = some n ∧ hexDigitChar n ≠ '$' ∧
    hexDigitChar n ≠ ' ' := by
  interval_cases n <;> exact ⟨by decide, by decide, by decide⟩

theorem bytesToHex_no_dollar {bs : List Nat} (hbs : ∀ b ∈ bs, b < 256) :
    ∀ c ∈ bytesToHex bs, c ≠ '$' := by
  induction bs with
  | nil => intro c hc; simp [bytesToHex] at hc
  | cons b rest ih =>
    intro c hc
    have hb : b < 256 := hbs b (List.mem_cons_self b rest)
    have hhi : b / 16 < 16 := Nat.div_lt_of_lt_mul (by omega)
    have hlo : b % 16 < 16 := Nat.mod_lt _ (by norm_num)
    simp only [bytesToHex, List.map_cons, List.flatten_cons] at hc
    rcases List.mem_cons.mp hc with h1 | hc2
    · exact h1 ▸ (hexDigitChar_spec hhi).2.1
    · rcases List.mem_cons.mp hc2 with h1 | hc3
      · exact h1 ▸ (hexDigitChar_spec hlo).2.1
      · exact ih (fun x hx => hbs x (List.mem_cons_of_mem _ hx)) c hc3

theorem hexToBytes_bytesToHex {bs : List Nat} (hbs : ∀ b ∈ bs, b < 256) :
    hexToBytes (bytesToHex bs) = some bs := by
  induction bs with
  | nil => rfl
  | cons b rest ih =>
    have hb : b < 256 := hbs b (List.mem_cons_self b rest)
    have hhi : b / 16 < 16 := Nat.div_lt_of_lt_mul (by omega)
    have hlo : b % 16 < 16 := Nat.mod_lt _ (by norm_num)
    have hrest := ih (fun x hx => hbs x (List.mem_cons_of_mem _ hx))
    simp only [bytesToHex, List.map_cons, List.flatten_cons, List.cons_append]
    rw [hexToBytes]
    rw [if_neg (hexDigitChar_spec hhi).2.2]
    simp only [(hexDigitChar_spec hhi).1, (hexDigitChar_spec hlo).1,
      List.nil_append]
    have harr : bytesToHex rest =
        (rest.map (fun x => [hexDigitChar (x / 16), hexDigitChar (x % 16)])).flatten := rfl
    rw [← harr, hrest]
    simp
    omega

theorem bytesToHex_injective {b1 b2 : List Nat} (h1 : ∀ b ∈ b1, b < 256)
    (h2 : ∀ b ∈ b2, b < 256) (h : bytesToHex b1 = bytesToHex b2) : b1 = b2 := by
  have e1 := hexToBytes_bytesToHex h1
  have e2 := hexToBytes_bytesToHex h2
  rw [h, e2] at e1
  injection e1 with e
  exact e.symm

theorem bytesBE_lt (n v : Nat) : ∀ b ∈ bytesBE n v, b < 256 := by
  induction n generalizing v with
  | zero => intro b hb; simp [bytesBE] at hb
  | succ m ih =>
    intro b hb
    rw [bytesBE] at hb
    rcases List.mem_append.mp hb with h | h
    · exact ih _ b h
    · simp at h
      subst h
      exact Nat.mod_lt _ (by norm_num)

theorem sha256_lt (msg : List Nat) : ∀ b ∈ sha256 msg, b < 256 := by
  intro b hb
  unfold sha256 at hb
  simp only [List.mem_flatten, List.mem_map] at hb
  obtain ⟨s, ⟨w, -, hw⟩, hbs⟩ := hb
  rw [← hw] at hbs
  exact bytesBE_lt 4 w b hbs

theorem splitDollar_cons_dollar (rest : List Char) :
    splitDollar ('$' :: rest) = [] :: splitDollar rest := by
  rw [splitDollar]
  simp

theorem splitDollar_append {a rest : List Char} {h : List Char}
    {t : List (List Char)} (hnd : ∀ c ∈ a, c ≠ '$')
    (hrest : splitDollar rest = h :: t) :
    splitDollar (a ++ rest) = (a ++ h) :: t := by
  induction a with
  | nil => simpa using hrest
  | cons c a2 ih =>
    have hc : c ≠ '$' := hnd c (List.mem_cons_self c a2)
    have ih2 := ih (fun x hx => hnd x (List.mem_cons_of_mem _ hx))
    rw [List.cons_append, splitDollar]
    simp only [ih2, if_neg hc]
    rfl

theorem splitDollar_no_dollar {a : List Char} (hnd : ∀ c ∈ a, c ≠ '$') :
    splitDollar a = [a] := by
  have := splitDollar_append hnd (show splitDollar [] = [] :: [] from rfl)
  simpa using this

theorem splitDollar_hash_password (salt password : List Nat)
    (hsalt : ∀ b ∈ salt, b < 256) :
    splitDollar (hash_password salt password) =
      ["sha256".toList, bytesToHex salt,
       bytesToHex (sha256 (salt ++ password))] := by
  unfold hash_password
  have h2 : splitDollar ('$' :: bytesToHex (sha256 (salt ++ password))) =
      [] :: [bytesToHex (sha256 (salt ++ password))] := by
    rw [splitDollar_cons_dollar,
      splitDollar_no_dollar (bytesToHex_no_dollar (sha256_lt _))]
  have h3 : splitDollar (bytesToHex salt ++
      ('$' :: bytesToHex (sha256 (salt ++ password)))) =
      [bytesToHex salt, bytesToHex (sha256 (salt ++ password))] := by
    rw [splitDollar_append (bytesToHex_no_dollar hsalt) h2]
    simp
  have h4 : splitDollar ('$' :: (bytesToHex salt ++
      ('$' :: bytesToHex (sha256 (salt ++ password))))) =
      [] :: [bytesToHex salt, bytesToHex (sha256 (salt ++ password))] := by
    rw [splitDollar_cons_dollar, h3]
  have h5 := splitDollar_append
    (show ∀ c ∈ "sha256".toList, c ≠ '$' from by decide) h4
  simpa using h5

theorem verify_password_hash_reduces (salt s1 s2 : List Nat)
    (hsalt : ∀ b ∈ salt, b < 256) :
    verify_password s2 (hash_password salt s1) =
      (bytesToHex (sha256 (salt ++ s2)) == bytesToHex (sha256 (salt ++ s1))) := by
  unfold verify_password
  rw [splitDollar_hash_password salt s1 hsalt]
  simp [hexToBytes_bytesToHex hsalt]

/-- C5: for every secret and every salt the hasher may draw,
`verify_password` accepts `hash_password` of that secret; and for any
distinct second secret it rejects, unless the two salt-prefixed SHA-256
digests collide. -/
theorem verify_accepts_hash_rejects_others (salt s1 s2 : List Nat)
    (hsalt : ∀ b ∈ salt, b < 256) :
    verify_password s1 (hash_password salt s1) = true ∧
    (sha256 (salt ++ s2) ≠ sha256 (salt ++ s1) →
      verify_password s2 (hash_password salt s1) = false) := by
  constructor
  · rw [verify_password_hash_reduces salt s1 s1 hsalt]
    simp
  · intro hne
    rw [verify_password_hash_reduces salt s1 s2 hsalt]
    rw [beq_eq_false_iff_ne]
    intro heq
    exact hne (bytesToHex_injective (sha256_lt _) (sha256_lt _) heq)

/-- Witness for C5 at a concrete salt and pair of secrets. -/
theorem verify_accepts_hash_rejects_others_witness :
    (∀ b ∈ [7, 255], b < 256) ∧
    (verify_password [97] (hash_password [7, 255] [97]) = true ∧
     (sha256 ([7, 255] ++ [98]) ≠ sha256 ([7, 255] ++ [97]) →
       verify_password [98] (hash_password [7, 255] [97]) = false)) :=
  ⟨by decide, verify_accepts_hash_rejects_others [7, 255] [97] [98] (by decide)⟩

/-- C6: `verify_password` is total and returns `false` on every malformed
encoded hash: when the input does not split into exactly three
dollar-delimited fields, when the algorithm tag differs from `sha256`, and
when the salt field does not parse as hex (`bytes.fromhex` raising is the
`none` case of `hexToBytes`). Totality — no exception ever escapes — is
expressed by `verify_password` being a total Lean function into `Bool`. -/
theorem verify_false_on_malformed (plain : List Nat) (hashed : List Char) :
    ((splitDollar hashed).length ≠ 3 → verify_password plain hashed = false) ∧
    (∀ algo salt_hex stored_hex,
       splitDollar hashed = [algo, salt_hex, stored_hex] →
       (algo ≠ "sha256".toList → verify_password plain hashed = false) ∧
       (hexToBytes salt_hex = none → verify_password plain hashed = false)) := by
  constructor
  · intro hlen
    unfold verify_password
    split
    · rename_i a b c hsp
      rw [hsp] at hlen
      simp at hlen
    · rfl
  · intro algo salt_hex stored_hex hsp
    constructor
    · intro hne
      unfold verify_password
      rw [hsp]
      simp only [ne_eq, ite_not]
      rw [if_neg hne]
    · intro hhex
      by_cases halgo : algo = "sha256".toList
      · unfold verify_password
        rw [hsp]
        subst halgo
        simp [hhex]
      · unfold verify_password
        rw [hsp]
        simp only [ne_eq, ite_not]
        rw [if_neg halgo]

/-- Witness for C6 at concrete malformed inputs. -/
theorem verify_false_on_malformed_witness :
    ((splitDollar "no-dollars-here".toList).length ≠ 3 ∧
      verify_password [] "no-dollars-here".toList = false) ∧
    (splitDollar "md5$00$aa".toList =
        ["md5".toList, "00".toList, "aa".toList] ∧
      "md5".toList ≠ "sha256".toList ∧
      verify_password [] "md5$00$aa".toList = false) ∧
    (splitDollar "sha256$zz$aa".toList =
        ["sha256".toList, "zz".toList, "aa".toList] ∧
      hexToBytes "zz".toList = none ∧
      verify_password [] "sha256$zz$aa".toList = false) :=
  ⟨⟨by decide, (verify_false_on_malformed [] "no-dollars-here".toList).1 (by decide)⟩,
   ⟨by decide, by decide,
     ((verify_false_on_malformed [] "md5$00$aa".toList).2 "md5".toList
       "00".toList "aa".toList (by decide)).1 (by decide)⟩,
   ⟨by decide, by decide,
     ((verify_false_on_malformed [] "sha256$zz$aa".toList).2 "sha256".toList
       "zz".toList "aa".toList (by decide)).2 (by decide)⟩⟩

/-- C8 counterexample: the decoder does not surface four distinct error
kinds. A malformed token, a token with an invalid signature and an expired
token produce the very same error value (status 401, detail "Invalid or
expired token"), and the wrong-type error differs from them only in its
detail text while carrying the same 401 status — so the caller cannot
distinguish the causes without inspecting message text, contradicting the
claim. -/
theorem decode_errors_collapsed :
    decode_refresh_token 100 ⟨false, true, 200, some "u", some "j", some "refresh"⟩ =
      decode_refresh_token 100 ⟨true, false, 200, some "u", some "j", some "refresh"⟩ ∧
    decode_refresh_token 100 ⟨true, false, 200, some "u", some "j", some "refresh"⟩ =
      decode_refresh_token 100 ⟨true, true, 50, some "u", some "j", some "refresh"⟩ ∧
    decode_refresh_token 100 ⟨true, true, 50, some "u", some "j", some "refresh"⟩ =
      .error ⟨401, "Invalid or expired token"⟩ ∧
    decode_refresh_token 100 ⟨true, true, 200, some "u", some "j", some "access"⟩ =
      .error ⟨401, "Invalid token type"⟩ := by
  exact ⟨rfl, rfl, rfl, rfl⟩

/-- C8 amended: `decode_refresh_token` returns the claims on success;
otherwise it fails with HTTP status 401, where a structurally valid,
unexpired, correctly signed token of the wrong type carries detail
"Invalid token type" and every other failure (malformed, bad signature,
expired) carries the single detail "Invalid or expired token" — the four
causes are not distinct error kinds. -/
theorem decode_refresh_token_spec (now : Nat) (t : RefreshJWT) :
    (t.wellFormed = true → t.sigOk = true → now < t.exp →
      t.typ = some "refresh" → decode_refresh_token now t = .ok t) ∧
    ((t.wellFormed = false ∨ t.sigOk = false ∨ t.exp ≤ now) →
      decode_refresh_token now t = .error ⟨401, "Invalid or expired token"⟩) ∧
    (t.wellFormed = true → t.sigOk = true → now < t.exp →
      t.typ ≠ some "refresh" →
      decode_refresh_token now t = .error ⟨401, "Invalid token type"⟩) := by
  refine ⟨?_, ?_, ?_⟩
  · intro hw hs hlt hty
    exact decode_ok_iff.mpr ⟨hw, hs, hlt, hty, rfl⟩
  · intro hbad
    unfold decode_refresh_token
    rw [if_pos]
    simp only [Bool.or_eq_true, Bool.not_eq_true', decide_eq_true_eq]
    tauto
  · intro hw hs hlt hty
    have hcond : (!t.wellFormed || !t.sigOk || decide (t.exp ≤ now)) = false := by
      simp [hw, hs]
      omega
    simp [decode_refresh_token, hcond, hty]

/-- Witness for the amended C8 at a concrete token. -/
theorem decode_refresh_token_spec_witness :
    ((100 : Nat) < 200) ∧
    decode_refresh_token 100 ⟨true, true, 200, some "u", some "j", some "refresh"⟩ =
      .ok ⟨true, true, 200, some "u", some "j", some "refresh"⟩ :=
  ⟨by decide, (decode_refresh_token_spec 100
    ⟨true, true, 200, some "u", some "j", some "refresh"⟩).1 rfl rfl (by decide) rfl⟩

/-- C2 counterexample: rotation is not one all-or-nothing transaction. On a
store with a single Active session, a successful refresh runs two commits:
the state persisted by the first commit (returned by `refresh_access_mid`,
which models everything up to the `db.commit()` inside
`_create_refresh_record_and_token`) already has the old session revoked and
the new row inserted, while `replaced_by` is still null. A failure between
that commit and the final `db.commit()` therefore leaves two of the three
writes persisted and the old session no longer Active — contradicting the
claim that a mid-way failure persists none of the writes and keeps the old
session Active. -/
theorem refresh_rotation_not_one_transaction :
    refresh_access_mid ⟨[], [], [⟨"j0", "u1", false, none, 1000⟩]⟩ 100
        ⟨true, true, 500, some "u1", some "j0", some "refresh"⟩ "j1" =
      .ok (⟨[], [], [⟨"j0", "u1", true, none, 1000⟩,
        ⟨"j1", "u1", false, none, 2592100⟩]⟩, "u1", "j0") ∧
    refresh_access ⟨[], [], [⟨"j0", "u1", false, none, 1000⟩]⟩ 100
        ⟨true, true, 500, some "u1", some "j0", some "refresh"⟩ "j1" "a1" =
      .ok (⟨[], [], [⟨"j0", "u1", true, some "j1", 1000⟩,
        ⟨"j1", "u1", false, none, 2592100⟩]⟩,
        ⟨"u1", 100, 3700, "a1"⟩,
        ⟨true, true, 2592100, some "u1", some "j1", some "refresh"⟩, 2592000) ∧
    (⟨[], [], [⟨"j0", "u1", true, none, 1000⟩,
        ⟨"j1", "u1", false, none, 2592100⟩]⟩ : DB) ≠
      ⟨[], [], [⟨"j0", "u1", false, none, 1000⟩]⟩ :=
  ⟨rfl, rfl, by decide⟩

/-- C2 amended: a successful refresh performs its writes in two committed
transactions, not one. The first commit atomically persists both the
revocation of the old session and the insertion of the new Active row; the
second commit then only sets `replaced_by` on the old row. A failure
between the commits leaves the old session revoked with `replaced_by` null
and the new row present (so the old session is not Active, and no state
with two simultaneously valid tokens is ever persisted). -/
theorem refresh_rotation_two_commits (db : DB) (now : Nat) (t : RefreshJWT)
    (j a : String) (db3 : DB) (tok : AccessToken) (rj : RefreshJWT) (m : Nat)
    (h : refresh_access db now t j a = .ok (db3, tok, rj, m)) :
    ∃ db2 s o rec,
      refresh_access_mid db now t j = .ok (db2, s, o) ∧
      db.sessions.find? (fun r => r.jti = o) = some rec ∧
      rec.revoked = false ∧
      db2.sessions = updateFirst (fun r => r.jti = o)
        (fun r => { r with revoked := true }) db.sessions ++
        [⟨j, s, false, none, now + 30 * 86400⟩] ∧
      db2.sessions.find? (fun r => r.jti = o) =
        some { rec with revoked := true } ∧
      db3.sessions = updateFirst (fun r => r.jti = o)
        (fun r => { r with replaced_by := some j }) db2.sessions ∧
      db3.sessions.find? (fun r => r.jti = o) =
        some { rec with revoked := true, replaced_by := some j } ∧
      db3.users = db.users ∧ db3.profiles = db.profiles := by
  obtain ⟨db2, s, o, hmid, hu3, hp3, hs3⟩ := refresh_access_ok_elim h
  obtain ⟨-, -, -, -, -, -, rec, hfind, hrev, -, hu2, hp2, hs2⟩ :=
    refresh_mid_ok hmid
  have hprec := find?_some_eq hfind
  have hfr : (updateFirst (fun r => r.jti = o)
      (fun r => { r with revoked := true }) db.sessions).find?
        (fun r => r.jti = o) = some { rec with revoked := true } :=
    updateFirst_find? hfind hprec
  have hfr2 : db2.sessions.find? (fun r => r.jti = o) =
      some { rec with revoked := true } := by
    rw [hs2]
    exact find?_append_some hfr
  have hprec2 := find?_some_eq hfr2
  have hfr3 : db3.sessions.find? (fun r => r.jti = o) =
      some { rec with revoked := true, replaced_by := some j } := by
    rw [hs3]
    exact updateFirst_find? hfr2 hprec2
  exact ⟨db2, s, o, rec, hmid, hfind, hrev, hs2, hfr2, hs3, hfr3,
    hu3.trans hu2, hp3.trans hp2⟩

/-- Witness for the amended C2 at a concrete store. -/
theorem refresh_rotation_two_commits_witness :
    ∃ db2 s o rec,
      refresh_access_mid ⟨[], [], [⟨"j0", "u1", false, none, 1000⟩]⟩ 100
          ⟨true, true, 500, some "u1", some "j0", some "refresh"⟩ "j1" =
        .ok (db2, s, o) ∧
      (⟨[], [], [⟨"j0", "u1", false, none, 1000⟩]⟩ :
          DB).sessions.find? (fun r => r.jti = o) = some rec ∧
      rec.revoked = false ∧
      db2.sessions = updateFirst (fun r => r.jti = o)
        (fun r => { r with revoked := true })
          (⟨[], [], [⟨"j0", "u1", false, none, 1000⟩]⟩ : DB).sessions ++
        [⟨"j1", s, false, none, 100 + 30 * 86400⟩] ∧
      db2.sessions.find? (fun r => r.jti = o) =
        some { rec with revoked := true } ∧
      (⟨[], [], [⟨"j0", "u1", true, some "j1", 1000⟩,
          ⟨"j1", "u1", false, none, 2592100⟩]⟩ : DB).sessions =
        updateFirst (fun r => r.jti = o)
          (fun r => { r with replaced_by := some "j1" }) db2.sessions ∧
      (⟨[], [], [⟨"j0", "u1", true, some "j1", 1000⟩,
          ⟨"j1", "u1", false, none, 2592100⟩]⟩ :
            DB).sessions.find? (fun r => r.jti = o) =
        some { rec with revoked := true, replaced_by := some "j1" } ∧
      (⟨[], [], [⟨"j0", "u1", true, some "j1", 1000⟩,
          ⟨"j1", "u1", false, none, 2592100⟩]⟩ : DB).users =
        (⟨[], [], [⟨"j0", "u1", false, none, 1000⟩]⟩ : DB).users ∧
      (⟨[], [], [⟨"j0", "u1", true, some "j1", 1000⟩,
          ⟨"j1", "u1", false, none, 2592100⟩]⟩ : DB).profiles =
        (⟨[], [], [⟨"j0", "u1", false, none, 1000⟩]⟩ : DB).profiles :=
  refresh_rotation_two_commits
    ⟨[], [], [⟨"j0", "u1", false, none, 1000⟩]⟩ 100
    ⟨true, true, 500, some "u1", some "j0", some "refresh"⟩ "j1" "a1"
    ⟨[], [], [⟨"j0", "u1", true, some "j1", 1000⟩,
      ⟨"j1", "u1", false, none, 2592100⟩]⟩
    ⟨"u1", 100, 3700, "a1"⟩
    ⟨true, true, 2592100, some "u1", some "j1", some "refresh"⟩ 2592000 rfl

/-- Witness for C1: at a concrete store, logout followed by refresh of the
same token fails with status 401. -/
theorem refresh_rejects_stale_sessions_witness :
    (5 : Nat) ≤ 7 ∧
    ∃ e, refresh_access
        (logout ⟨[], [], [⟨"j0", "u1", false, none, 1000⟩]⟩ 5
          ⟨true, true, 100, some "u1", some "j0", some "refresh"⟩)
        7 ⟨true, true, 100, some "u1", some "j0", some "refresh"⟩ "j1" "a1" =
      .error e ∧ e.status = 401 :=
  ⟨by decide, refresh_rejects_stale_sessions.2.2
    ⟨[], [], [⟨"j0", "u1", false, none, 1000⟩]⟩ 5 7
    ⟨true, true, 100, some "u1", some "j0", some "refresh"⟩ "j1" "a1"
    (by decide)⟩

/-! Preservation of the `replaced_by` invariant by each operation. -/

theorem sessInv_mint {db : DB} (now : Nat) (uid j : String)
    (hinv : sessInv db) : sessInv (mint_refresh_token db now uid j).1 := by
  intro r hr hrep
  rw [mint_sessions] at hr
  rcases List.mem_append.mp hr with h1 | h1
  · exact hinv r h1 hrep
  · simp only [List.mem_singleton] at h1
    subst h1
    exact absurd rfl hrep

theorem sessInv_mid {db : DB} {now : Nat} {t : RefreshJWT} {j : String}
    {db2 : DB} {s o : String} (hinv : sessInv db)
    (h : refresh_access_mid db now t j = .ok (db2, s, o)) : sessInv db2 := by
  obtain ⟨-, -, -, -, -, -, rec, hfind, -, -, -, -, hs2⟩ := refresh_mid_ok h
  intro r hr hrep
  rw [hs2] at hr
  rcases List.mem_append.mp hr with h1 | h1
  · rcases mem_updateFirst h1 with h2 | ⟨x, -, hx⟩
    · exact hinv r h2 hrep
    · subst hx
      rfl
  · simp only [List.mem_singleton] at h1
    subst h1
    exact absurd rfl hrep

theorem sessInv_full {db : DB} {now : Nat} {t : RefreshJWT} {j a : String}
    {db3 : DB} {tok : AccessToken} {rj : RefreshJWT} {m : Nat}
    (hinv : sessInv db)
    (h : refresh_access db now t j a = .ok (db3, tok, rj, m)) :
    sessInv db3 := by
  obtain ⟨db2, s, o, hmid, -, -, hs3⟩ := refresh_access_ok_elim h
  have hinv2 := sessInv_mid hinv hmid
  obtain ⟨-, -, -, -, -, -, rec, hfind, -, -, -, -, hs2⟩ := refresh_mid_ok hmid
  have hprec := find?_some_eq hfind
  have hfr : (updateFirst (fun r => r.jti = o)
      (fun r => { r with revoked := true }) db.sessions).find?
        (fun r => r.jti = o) = some { rec with revoked := true } :=
    updateFirst_find? hfind hprec
  have hfr2 : db2.sessions.find? (fun r => r.jti = o) =
      some { rec with revoked := true } := by
    rw [hs2]
    exact find?_append_some hfr
  intro r hr hrep
  rw [hs3] at hr
  rcases mem_updateFirst hr with h1 | ⟨x, hx, hxr⟩
  · exact hinv2 r h1 hrep
  · rw [hfr2] at hx
    injection hx with hx2
    subst hxr
    rw [← hx2]

theorem sessInv_logout {db : DB} (now : Nat) (t : RefreshJWT)
    (hinv : sessInv db) : sessInv (logout db now t) := by
  obtain ⟨-, -, hcase⟩ := logout_sessions_cases db now t
  intro r hr hrep
  rcases hcase with h1 | ⟨j0, h1⟩
  · rw [h1] at hr
    exact hinv r hr hrep
  · rw [h1] at hr
    rcases mem_updateFirst hr with h2 | ⟨x, -, hx⟩
    · exact hinv r h2 hrep
    · subst hx
      rfl

/-- C7: every reachable store state satisfies the invariant that a session
row with `replaced_by` set has `revoked = true`, and each session-touching
operation — opening a session at login (`mint_refresh_token`), rotation
(`refresh_access`, including its first-commit mid-state), and revocation by
logout — preserves the invariant from any state satisfying it. -/
theorem replaced_by_implies_revoked :
    (∀ db, Reachable db → sessInv db) ∧
    (∀ (db : DB) (now : Nat) (uid j : String), sessInv db →
      sessInv (mint_refresh_token db now uid j).1) ∧
    (∀ (db : DB) (now : Nat) (t : RefreshJWT) (j : String) (db2 : DB)
       (s o : String), sessInv db →
      refresh_access_mid db now t j = .ok (db2, s, o) → sessInv db2) ∧
    (∀ (db : DB) (now : Nat) (t : RefreshJWT) (j a : String) (db2 : DB)
       (tok : AccessToken) (rj : RefreshJWT) (m : Nat), sessInv db →
      refresh_access db now t j a = .ok (db2, tok, rj, m) → sessInv db2) ∧
    (∀ (db : DB) (now : Nat) (t : RefreshJWT), sessInv db →
      sessInv (logout db now t)) := by
  refine ⟨?_, fun db now uid j h => sessInv_mint now uid j h,
    fun db now t j db2 s o h hok => sessInv_mid h hok,
    fun db now t j a db2 tok rj m h hok => sessInv_full h hok,
    fun db now t h => sessInv_logout now t h⟩
  intro db h
  induction h with
  | empty =>
    intro r hr _
    simp at hr
  | register db u hashed i p db2 usr hre hok ih =>
    intro r hr hrep
    rw [create_user_sessions hok] at hr
    exact ih r hr hrep
  | openSession db now uid j hre ih => exact sessInv_mint now uid j ih
  | refreshMid db now t j db2 s o hre hok ih => exact sessInv_mid ih hok
  | refreshFull db now t j a db2 tok rj m hre hok ih => exact sessInv_full ih hok
  | loggedOut db now t hre ih => exact sessInv_logout now t ih
  | roleById db uid role db2 usr hre hok ih =>
    intro r hr hrep
    rw [set_role_by_id_sessions hok] at hr
    exact ih r hr hrep
  | roleByEmail db em role db2 usr hre hok ih =>
    intro r hr hrep
    rw [set_role_by_email_sessions hok] at hr
    exact ih r hr hrep
  | bootstrapped db uid db2 usr hre hok ih =>
    intro r hr hrep
    rw [bootstrap_admin_sessions hok] at hr
    exact ih r hr hrep
  | profiled db uid u i hre ih =>
    intro r hr hrep
    rw [upsert_profile_sessions db uid u i] at hr
    exact ih r hr hrep

/-- Witness for C7: logout preserves the invariant at a concrete store that
has one rotated (revoked, linked) session and one active session. -/
theorem replaced_by_implies_revoked_witness :
    sessInv ⟨[], [], [⟨"j0", "u1", true, some "j1", 1000⟩,
      ⟨"j1", "u1", false, none, 2000⟩]⟩ ∧
    sessInv (logout ⟨[], [], [⟨"j0", "u1", true, some "j1", 1000⟩,
      ⟨"j1", "u1", false, none, 2000⟩]⟩ 100
      ⟨true, true, 500, some "u1", some "j1", some "refresh"⟩) :=
  ⟨by unfold sessInv; decide, replaced_by_implies_revoked.2.2.2.2
    ⟨[], [], [⟨"j0", "u1", true, some "j1", 1000⟩,
      ⟨"j1", "u1", false, none, 2000⟩]⟩ 100
    ⟨true, true, 500, some "u1", some "j1", some "refresh"⟩
    (by unfold sessInv; decide)⟩

theorem create_user_ok_elim {db : DB} {u : UserCreate} {hashed : List Char}
    {i p : String} {db2 : DB} {usr : User}
    (h : create_user db u hashed i p = .ok (db2, usr)) :
    create_user_insert db u hashed i p = .ok (db2, usr) := by
  unfold create_user at h
  split at h
  · split at h
    · exact Except.noConfusion h
    · split at h
      · exact Except.noConfusion h
      · exact h
  · exact h

theorem create_user_insert_elim {db : DB} {u : UserCreate}
    {hashed : List Char} {i p : String} {db2 : DB} {usr : User}
    (h : create_user_insert db u hashed i p = .ok (db2, usr)) :
    usr = ⟨i, u.username, u.email, hashed,
      if !db.users.any (fun x => x.role = RoleEnum.admin) then RoleEnum.admin
      else RoleEnum.driver⟩ ∧
    db2.users = db.users ++ [usr] := by
  unfold create_user_insert at h
  simp only [Except.ok.injEq, Prod.mk.injEq] at h
  obtain ⟨hdb, hu⟩ := h
  refine ⟨hu.symm, ?_⟩
  rw [← hdb, ← hu]

/-- C3: every user row carries a role that is admin or driver; a
registration into an empty store (the first-ever registration) creates its
user with role admin; and a registration performed while at least one admin
already exists creates its user with role driver. -/
theorem first_registration_bootstraps_admin :
    (∀ (db : DB) (u : UserCreate) (hashed : List Char) (i p : String)
       (db2 : DB) (usr : User),
       create_user db u hashed i p = .ok (db2, usr) →
       ∀ x ∈ db2.users, x.role = RoleEnum.admin ∨ x.role = RoleEnum.driver) ∧
    (∀ (db : DB) (u : UserCreate) (hashed : List Char) (i p : String)
       (db2 : DB) (usr : User), db.users = [] →
       create_user db u hashed i p = .ok (db2, usr) →
       usr.role = RoleEnum.admin) ∧
    (∀ (db : DB) (u : UserCreate) (hashed : List Char) (i p : String)
       (db2 : DB) (usr : User),
       (∃ x ∈ db.users, x.role = RoleEnum.admin) →
       create_user db u hashed i p = .ok (db2, usr) →
       usr.role = RoleEnum.driver) := by
  refine ⟨?_, ?_, ?_⟩
  · intro db u hashed i p db2 usr hok x hx
    cases x.role
    · exact Or.inl rfl
    · exact Or.inr rfl
  · intro db u hashed i p db2 usr hempty hok
    obtain ⟨husr, -⟩ := create_user_insert_elim (create_user_ok_elim hok)
    rw [husr, hempty]
    rfl
  · intro db u hashed i p db2 usr hex hok
    obtain ⟨husr, -⟩ := create_user_insert_elim (create_user_ok_elim hok)
    have hadm : db.users.any (fun x => decide (x.role = RoleEnum.admin)) = true := by
      rw [List.any_eq_true]
      obtain ⟨x, hx, hr⟩ := hex
      exact ⟨x, hx, by simp [hr]⟩
    rw [husr]
    simp [hadm]

/-- Witness for C3: the first registration into the empty store yields an
admin. -/
theorem first_registration_bootstraps_admin_witness :
    ((⟨[], [], []⟩ : DB).users = []) ∧
    create_user ⟨[], [], []⟩ ⟨"alice", "alice@x.com", [112, 119]⟩ [] "u1" "p1" =
      .ok (⟨[⟨"u1", "alice", "alice@x.com", [], RoleEnum.admin⟩],
        [⟨"p1", "u1", none, none, none, none⟩], []⟩,
        ⟨"u1", "alice", "alice@x.com", [], RoleEnum.admin⟩) ∧
    (⟨"u1", "alice", "alice@x.com", [], RoleEnum.admin⟩ : User).role =
      RoleEnum.admin :=
  ⟨rfl, rfl, first_registration_bootstraps_admin.2.1 ⟨[], [], []⟩
    ⟨"alice", "alice@x.com", [112, 119]⟩ [] "u1" "p1"
    (⟨[⟨"u1", "alice", "alice@x.com", [], RoleEnum.admin⟩],
      [⟨"p1", "u1", none, none, none, none⟩], []⟩ : DB)
    ⟨"u1", "alice", "alice@x.com", [], RoleEnum.admin⟩ rfl rfl⟩

/-- C4: `bootstrap_admin` fails 403 Forbidden as soon as any admin exists;
otherwise, when the caller's user row exists, it promotes exactly that row
to admin and returns the updated user. -/
theorem bootstrap_admin_spec :
    (∀ (db : DB) (uid : String),
       (∃ x ∈ db.users, x.role = RoleEnum.admin) →
       bootstrap_admin db uid = .error ⟨403, "Admin already exists"⟩) ∧
    (∀ (db : DB) (uid : String) (usr : User),
       (¬ ∃ x ∈ db.users, x.role = RoleEnum.admin) →
       db.users.find? (fun x => x.id = uid) = some usr →
       ∃ db2, bootstrap_admin db uid =
           .ok (db2, { usr with role := RoleEnum.admin }) ∧
         db2.users.find? (fun x => x.id = uid) =
           some { usr with role := RoleEnum.admin }) := by
  constructor
  · intro db uid hex
    have hadm : db.users.any (fun x => decide (x.role = RoleEnum.admin)) = true := by
      rw [List.any_eq_true]
      obtain ⟨x, hx, hr⟩ := hex
      exact ⟨x, hx, by simp [hr]⟩
    unfold bootstrap_admin
    simp [hadm]
  · intro db uid usr hnone hfind
    have hadm : db.users.any (fun x => decide (x.role = RoleEnum.admin)) = false := by
      rw [List.any_eq_false]
      intro x hx
      simp only [decide_eq_true_eq]
      intro hr
      exact hnone ⟨x, hx, hr⟩
    have hprec := find?_some_eq hfind
    refine ⟨{ db with users := updateFirst (fun x => x.id = uid) (fun x => { x with role := RoleEnum.admin }) db.users }, ?_, ?_⟩
    · unfold bootstrap_admin
      simp [hadm, hfind]
    · exact updateFirst_find? hfind hprec

/-- Witness for C4 at a concrete store with one driver and no admin. -/
theorem bootstrap_admin_spec_witness :
    (¬ ∃ x ∈ (⟨[⟨"u1", "bob", "b@x", [], RoleEnum.driver⟩], [], []⟩ :
        DB).users, x.role = RoleEnum.admin) ∧
    (⟨[⟨"u1", "bob", "b@x", [], RoleEnum.driver⟩], [], []⟩ :
        DB).users.find? (fun x => x.id = "u1") =
      some ⟨"u1", "bob", "b@x", [], RoleEnum.driver⟩ ∧
    ∃ db2, bootstrap_admin
        ⟨[⟨"u1", "bob", "b@x", [], RoleEnum.driver⟩], [], []⟩ "u1" =
        .ok (db2, { (⟨"u1", "bob", "b@x", [], RoleEnum.driver⟩ : User) with
          role := RoleEnum.admin }) ∧
      db2.users.find? (fun x => x.id = "u1") =
        some { (⟨"u1", "bob", "b@x", [], RoleEnum.driver⟩ : User) with
          role := RoleEnum.admin } :=
  ⟨by decide, rfl, bootstrap_admin_spec.2
    ⟨[⟨"u1", "bob", "b@x", [], RoleEnum.driver⟩], [], []⟩ "u1"
    ⟨"u1", "bob", "b@x", [], RoleEnum.driver⟩ (by decide) rfl⟩

/-- C9 counterexample: with an invalid role string and a target user that
does not exist, `set_user_role_by_id` (and the by-email variant) returns
404 NotFound, not 400 InvalidRole — the code loads the user before
validating the role, the opposite order of the claim. -/
theorem set_role_validates_user_first_counterexample :
    roleFromString "superuser" = none ∧
    set_user_role_by_id ⟨[], [], []⟩ "u1" "superuser" =
      .error ⟨404, "User not found"⟩ ∧
    set_user_role_by_id ⟨[], [], []⟩ "u1" "superuser" ≠
      .error ⟨400, "Invalid role"⟩ ∧
    set_user_role_by_email ⟨[], [], []⟩ "x@y" "superuser" =
      .error ⟨404, "User not found"⟩ :=
  by
  refine ⟨rfl, rfl, ?_, rfl⟩
  intro h
  have h2 := Except.error.inj h
  have h3 : (404 : Nat) = 400 := congrArg ApiError.status h2
  exact absurd h3 (by decide)

/-- C9 amended: both role-setting operations first load the target user and
fail 404 NotFound when it is absent — regardless of whether the role string
is valid — and only for an existing target do they validate the role,
failing 400 InvalidRole for a string outside the set and persisting the
assignment otherwise. -/
theorem set_role_validates_user_first :
    (∀ (db : DB) (uid role : String),
       db.users.find? (fun x => x.id = uid) = none →
       set_user_role_by_id db uid role = .error ⟨404, "User not found"⟩) ∧
    (∀ (db : DB) (uid role : String) (usr : User),
       db.users.find? (fun x => x.id = uid) = some usr →
       roleFromString role = none →
       set_user_role_by_id db uid role = .error ⟨400, "Invalid role"⟩) ∧
    (∀ (db : DB) (uid role : String) (usr : User) (r : RoleEnum),
       db.users.find? (fun x => x.id = uid) = some usr →
       roleFromString role = some r →
       ∃ db2, set_user_role_by_id db uid role =
         .ok (db2, { usr with role := r })) ∧
    (∀ (db : DB) (em role : String),
       db.users.find? (fun x => x.email = em) = none →
       set_user_role_by_email db em role = .error ⟨404, "User not found"⟩) ∧
    (∀ (db : DB) (em role : String) (usr : User),
       db.users.find? (fun x => x.email = em) = some usr →
       roleFromString role = none →
       set_user_role_by_email db em role = .error ⟨400, "Invalid role"⟩) ∧
    (∀ (db : DB) (em role : String) (usr : User) (r : RoleEnum),
       db.users.find? (fun x => x.email = em) = some usr →
       roleFromString role = some r →
       ∃ db2, set_user_role_by_email db em role =
         .ok (db2, { usr with role := r })) := by
  refine ⟨?_, ?_, ?_, ?_, ?_, ?_⟩
  · intro db uid role hfind
    unfold set_user_role_by_id
    simp [hfind]
  · intro db uid role usr hfind hrole
    unfold set_user_role_by_id
    simp [hfind, hrole]
  · intro db uid role usr r hfind hrole
    unfold set_user_role_by_id
    simp [hfind, hrole]
  · intro db em role hfind
    unfold set_user_role_by_email
    simp [hfind]
  · intro db em role usr hfind hrole
    unfold set_user_role_by_email
    simp [hfind, hrole]
  · intro db em role usr r hfind hrole
    unfold set_user_role_by_email
    simp [hfind, hrole]

/-- Witness for the amended C9 at a concrete store: an invalid role on an
existing user yields 400 InvalidRole. -/
theorem set_role_validates_user_first_witness :
    (⟨[⟨"u1", "bob", "b@x", [], RoleEnum.driver⟩], [], []⟩ :
        DB).users.find? (fun x => x.id = "u1") =
      some ⟨"u1", "bob", "b@x", [], RoleEnum.driver⟩ ∧
    roleFromString "superuser" = none ∧
    set_user_role_by_id ⟨[⟨"u1", "bob", "b@x", [], RoleEnum.driver⟩], [], []⟩
        "u1" "superuser" = .error ⟨400, "Invalid role"⟩ :=
  ⟨rfl, rfl, set_role_validates_user_first.2.1
    ⟨[⟨"u1", "bob", "b@x", [], RoleEnum.driver⟩], [], []⟩ "u1" "superuser"
    ⟨"u1", "bob", "b@x", [], RoleEnum.driver⟩ rfl rfl⟩

/-- C10: a partial profile update changes exactly the explicitly-set
fields: omitted fields keep their previous values, the row's `id` and
`user_id` are unchanged, and the updated row is what the store then holds;
when no profile row exists for the user, the operation creates one (it is
total — there is no NotFound failure path) carrying the requested fields. -/
theorem upsert_profile_partial_update :
    (∀ (db : DB) (uid : String) (u : UserProfileUpdate) (i : String)
       (db2 : DB) (prof2 prof : UserProfile),
       db.profiles.find? (fun q => q.user_id = uid) = some prof →
       upsert_user_profile db uid u i = (db2, prof2) →
       prof2.id = prof.id ∧ prof2.user_id = prof.user_id ∧
       (u.first_name = none → prof2.first_name = prof.first_name) ∧
       (u.last_name = none → prof2.last_name = prof.last_name) ∧
       (u.phone_number = none → prof2.phone_number = prof.phone_number) ∧
       (u.address_line = none → prof2.address_line = prof.address_line) ∧
       (∀ v, u.first_name = some v → prof2.first_name = v) ∧
       (∀ v, u.last_name = some v → prof2.last_name = v) ∧
       (∀ v, u.phone_number = some v → prof2.phone_number = v) ∧
       (∀ v, u.address_line = some v → prof2.address_line = v) ∧
       db2.profiles.find? (fun q => q.user_id = uid) = some prof2 ∧
       db2.users = db.users ∧ db2.sessions = db.sessions) ∧
    (∀ (db : DB) (uid : String) (u : UserProfileUpdate) (i : String)
       (db2 : DB) (prof2 : UserProfile),
       db.profiles.find? (fun q => q.user_id = uid) = none →
       upsert_user_profile db uid u i = (db2, prof2) →
       prof2.user_id = uid ∧ prof2.id = i ∧
       db2.profiles = db.profiles ++ [prof2] ∧
       (u.first_name = none → prof2.first_name = none) ∧
       (∀ v, u.first_name = some v → prof2.first_name = v) ∧
       (u.last_name = none → prof2.last_name = none) ∧
       (∀ v, u.last_name = some v → prof2.last_name = v) ∧
       (u.phone_number = none → prof2.phone_number = none) ∧
       (∀ v, u.phone_number = some v → prof2.phone_number = v) ∧
       (u.address_line = none → prof2.address_line = none) ∧
       (∀ v, u.address_line = some v → prof2.address_line = v)) := by
  constructor
  · intro db uid u i db2 prof2 prof hfind hup
    unfold upsert_user_profile at hup
    rw [hfind] at hup
    simp only [Prod.mk.injEq] at hup
    obtain ⟨hdb, hprof⟩ := hup
    have hprec := find?_some_eq hfind
    have hfind2 : db2.profiles.find? (fun q => q.user_id = uid) =
        some (applyProfileUpdate prof u) := by
      rw [← hdb]
      exact updateFirst_find? hfind hprec
    subst hprof
    refine ⟨rfl, rfl, ?_, ?_, ?_, ?_, ?_, ?_, ?_, ?_, hfind2, by rw [← hdb], by rw [← hdb]⟩
    · intro hn
      simp [applyProfileUpdate, hn]
    · intro hn
      simp [applyProfileUpdate, hn]
    · intro hn
      simp [applyProfileUpdate, hn]
    · intro hn
      simp [applyProfileUpdate, hn]
    · intro v hv
      simp [applyProfileUpdate, hv]
    · intro v hv
      simp [applyProfileUpdate, hv]
    · intro v hv
      simp [applyProfileUpdate, hv]
    · intro v hv
      simp [applyProfileUpdate, hv]
  · intro db uid u i db2 prof2 hfind hup
    unfold upsert_user_profile at hup
    rw [hfind] at hup
    simp only [Prod.mk.injEq] at hup
    obtain ⟨hdb, hprof⟩ := hup
    subst hprof
    refine ⟨rfl, rfl, by rw [← hdb], ?_, ?_, ?_, ?_, ?_, ?_, ?_, ?_⟩
    · intro hn
      simp [applyProfileUpdate, hn]
    · intro v hv
      simp [applyProfileUpdate, hv]
    · intro hn
      simp [applyProfileUpdate, hn]
    · intro v hv
      simp [applyProfileUpdate, hv]
    · intro hn
      simp [applyProfileUpdate, hn]
    · intro v hv
      simp [applyProfileUpdate, hv]
    · intro hn
      simp [applyProfileUpdate, hn]
    · intro v hv
      simp [applyProfileUpdate, hv]

/-- Witness for C10: updating only the first name of an existing profile
keeps the other fields and identifiers. -/
theorem upsert_profile_partial_update_witness :
    (⟨[], [⟨"p1", "u1", some "Ann", none, some "123", none⟩], []⟩ :
        DB).profiles.find? (fun q => q.user_id = "u1") =
      some ⟨"p1", "u1", some "Ann", none, some "123", none⟩ ∧
    upsert_user_profile ⟨[], [⟨"p1", "u1", some "Ann", none, some "123", none⟩], []⟩
        "u1" ⟨some (some "Bea"), none, none, none⟩ "p9" =
      (⟨[], [⟨"p1", "u1", some "Bea", none, some "123", none⟩], []⟩,
        ⟨"p1", "u1", some "Bea", none, some "123", none⟩) ∧
    ((⟨"p1", "u1", some "Bea", none, some "123", none⟩ : UserProfile).id = "p1" ∧
     (⟨"p1", "u1", some "Bea", none, some "123", none⟩ : UserProfile).phone_number =
       some "123") :=
  ⟨rfl, rfl, by
    have h := (upsert_profile_partial_update.1
      ⟨[], [⟨"p1", "u1", some "Ann", none, some "123", none⟩], []⟩ "u1"
      ⟨some (some "Bea"), none, none, none⟩ "p9"
      ⟨[], [⟨"p1", "u1", some "Bea", none, some "123", none⟩], []⟩
      ⟨"p1", "u1", some "Bea", none, some "123", none⟩
      ⟨"p1", "u1", some "Ann", none, some "123", none⟩ rfl rfl)
    exact ⟨h.1, h.2.2.2.2.1 rfl⟩⟩

end EbikeAuth
